import Mathlib

/-
Verification of libs/androidfw/ResourceUtils.cpp: the reference tokenizer
(ExtractResourceName), the name materializer (ToResourceName) and the name
formatter (ToFormattedResourceString).

Strings are modelled as lists of characters.  A narrow pool string
(StringPiece) and a wide pool string (StringPiece16) both denote a sequence of
characters; the byte-level encodings are irrelevant to the functions under
study, so both are embedded as List Char.
-/

set_option autoImplicit false

namespace Android

/-- Output of ExtractResourceName: the three out-parameters, the two local
separator flags of the scan loop, and the boolean return value. -/
structure TokenizedName where
  package : List Char
  type : List Char
  entry : List Char
  hasPackageSeparator : Bool
  hasTypeSeparator : Bool
  ok : Bool
deriving DecidableEq, Repr

/-- The scan loop of ExtractResourceName.  The C++ walks a pointer `current`
from `start` to `end`; here `rest` is the unscanned remainder and `acc` is the
span from the pointer `start` (reset after each consumed separator) up to
`current`.  The branch conditions `typ = []` and `pkg = []` transcribe
the C++ conditions `out_type->size() == 0` and `out_package->size() == 0`; the
final `ok` transcribes the C++ return expression. -/
def extractLoop : List Char → List Char → List Char → List Char → Bool → Bool → TokenizedName
  | [], acc, pkg, typ, hasP, hasT =>
      { package := pkg, type := typ, entry := acc,
        hasPackageSeparator := hasP, hasTypeSeparator := hasT,
        ok := !(hasP && pkg.isEmpty) && !(hasT && typ.isEmpty) }
  | c :: rest, acc, pkg, typ, hasP, hasT =>
      if typ = [] ∧ c = '/' then
        extractLoop rest [] pkg acc hasP true
      else if pkg = [] ∧ c = ':' then
        extractLoop rest [] acc typ true hasT
      else
        extractLoop rest (acc ++ [c]) pkg typ hasP hasT

/-- The leading reference-marker strip: `if (start[0] == '@') start++;`.
This total version strips a leading '@' when the list is nonempty; the
out-of-bounds read the C++ performs on an empty input is modelled separately
by ExtractResourceNameChecked. -/
def stripRefMarker : List Char → List Char
  | [] => []
  | c :: rest => if c = '@' then rest else c :: rest

/-- ExtractResourceName from ResourceUtils.cpp over the total marker strip. -/
def ExtractResourceName (s : List Char) : TokenizedName :=
  extractLoop (stripRefMarker s) [] [] [] false false

/-- ExtractResourceName with the initial `start[0]` access made explicit:
indexing returns an Option, so the out-of-bounds branch of the unconditional
first-character read is observable.  On an in-bounds read the function behaves
exactly like ExtractResourceName. -/
def ExtractResourceNameChecked (s : List Char) : Option TokenizedName :=
  match s[0]? with
  | none => none
  | some c => some (extractLoop (if c = '@' then s.drop 1 else s) [] [] [] false false)

/-- NullOrIOError: the error alternative of the pool lookups, distinguishing
a null (absent) value from an I/O error; I/O errors carry their error code. -/
inductive NullOrIOError where
  | null : NullOrIOError
  | ioError (code : Int) : NullOrIOError
deriving DecidableEq, Repr

/-- base::expected with error type NullOrIOError. -/
inductive Expected (α : Type) where
  | ok (value : α) : Expected α
  | unexpected (error : NullOrIOError) : Expected α
deriving DecidableEq, Repr

/-- IsIOError on an expected value: true exactly when it holds the I/O-error
failure alternative (absence is not an I/O error). -/
def IsIOError {α : Type} : Expected α → Bool
  | .unexpected (.ioError _) => true
  | _ => false

/-- StringPoolRef as consumed by ToResourceName: the outcomes of its two
lookup operations, string8 (narrow) and string16 (wide). -/
structure StringPoolRef where
  string8 : Expected (List Char)
  string16 : Expected (List Char)
deriving DecidableEq, Repr

/-- AssetManager2::ResourceName as used by ResourceUtils.cpp: a package
pointer and, for each of type and entry, a narrow pointer and a wide pointer
(each possibly null).  A null pointer is `none`; the separate length fields of
the C++ struct are subsumed by the list lengths. -/
structure ResourceName where
  package : Option (List Char) := none
  type : Option (List Char) := none
  type16 : Option (List Char) := none
  entry : Option (List Char) := none
  entry16 : Option (List Char) := none
deriving DecidableEq, Repr

/-- The first if-block of ToResourceName: narrow type lookup.  On success set
the narrow type; on an I/O-error failure return it (early return); on a null
failure fall through with the type still unset. -/
def typeNarrowStep (type_string_ref : StringPoolRef) (name : ResourceName) :
    Expected ResourceName :=
  match type_string_ref.string8 with
  | .ok type_str => .ok { name with type := some type_str }
  | .unexpected NullOrIOError.null => .ok name
  | .unexpected (NullOrIOError.ioError c) => .unexpected (NullOrIOError.ioError c)

/-- The second if-block of ToResourceName: wide type fallback, entered only
when the narrow type is still null.  Note: the C++ guard of the early return
here is `!type16_str.has_value()`, which inside the else-branch of
`if (type16_str)` is always true; so this block returns the failure on any
lookup failure, the null one included (unlike the narrow block, which returns
only on IsIOError). -/
def typeWideStep (type_string_ref : StringPoolRef) (name : ResourceName) :
    Expected ResourceName :=
  if name.type = none then
    match type_string_ref.string16 with
    | .ok type16_str => .ok { name with type16 := some type16_str }
    | .unexpected e => .unexpected e
  else .ok name

/-- The third if-block of ToResourceName: narrow entry lookup, symmetric to
the narrow type lookup. -/
def entryNarrowStep (entry_string_ref : StringPoolRef) (name : ResourceName) :
    Expected ResourceName :=
  match entry_string_ref.string8 with
  | .ok entry_str => .ok { name with entry := some entry_str }
  | .unexpected NullOrIOError.null => .ok name
  | .unexpected (NullOrIOError.ioError c) => .unexpected (NullOrIOError.ioError c)

/-- The fourth if-block of ToResourceName: wide entry fallback, with the same
`!entry16_str.has_value()` early-return guard as the wide type block. -/
def entryWideStep (entry_string_ref : StringPoolRef) (name : ResourceName) :
    Expected ResourceName :=
  if name.entry = none then
    match entry_string_ref.string16 with
    | .ok entry16_str => .ok { name with entry16 := some entry16_str }
    | .unexpected e => .unexpected e
  else .ok name

/-- ToResourceName from ResourceUtils.cpp: package set directly from the
caller-supplied package name, then the four lookup blocks in program order,
each early return propagated. -/
def ToResourceName (type_string_ref entry_string_ref : StringPoolRef)
    (package_name : List Char) : Expected ResourceName :=
  match typeNarrowStep type_string_ref { package := some package_name } with
  | .unexpected e => .unexpected e
  | .ok n1 =>
    match typeWideStep type_string_ref n1 with
    | .unexpected e => .unexpected e
    | .ok n2 =>
      match entryNarrowStep entry_string_ref n2 with
      | .unexpected e => .unexpected e
      | .ok n3 => entryWideStep entry_string_ref n3

/-- The four pool lookups ToResourceName can perform, in program order. -/
inductive PoolOp where
  | narrowType : PoolOp
  | wideType : PoolOp
  | narrowEntry : PoolOp
  | wideEntry : PoolOp
deriving DecidableEq, Repr

/-- ToResourceName instrumented with the list of pool lookups it performs, in
order.  A lookup is recorded exactly when the corresponding call site is
reached: string8 calls unconditionally at their block, string16 calls only
under the `name.type == nullptr` (resp. `name.entry == nullptr`) guard. -/
def ToResourceNameTraced (type_string_ref entry_string_ref : StringPoolRef)
    (package_name : List Char) : Expected ResourceName × List PoolOp :=
  let t0 : List PoolOp := [PoolOp.narrowType]
  match typeNarrowStep type_string_ref { package := some package_name } with
  | .unexpected e => (.unexpected e, t0)
  | .ok n1 =>
    let t1 := if n1.type = none then t0 ++ [PoolOp.wideType] else t0
    match typeWideStep type_string_ref n1 with
    | .unexpected e => (.unexpected e, t1)
    | .ok n2 =>
      let t2 := t1 ++ [PoolOp.narrowEntry]
      match entryNarrowStep entry_string_ref n2 with
      | .unexpected e => (.unexpected e, t2)
      | .ok n3 =>
        let t3 := if n3.entry = none then t2 ++ [PoolOp.wideEntry] else t2
        (entryWideStep entry_string_ref n3, t3)

/-- Modelled from the spec: util::Utf16ToUtf8 is not part of the supplied
sources; the spec describes it as decoding a wide representation "to the
canonical text form".  Since wide strings are embedded as their character
sequences, the decode is the identity on that sequence. -/
def Utf16ToUtf8 (w : List Char) : List Char := w

/-- ToFormattedResourceString from ResourceUtils.cpp.  Each field block is
guarded by `narrow != nullptr || wide != nullptr`; the separator is appended
when the result accumulated so far is nonempty; the narrow pointer is
preferred and the wide pointer is decoded otherwise. -/
def ToFormattedResourceString (resource_name : ResourceName) : List Char :=
  let result : List Char := []
  let result :=
    match resource_name.package with
    | some p => result ++ p
    | none => result
  let result :=
    match resource_name.type, resource_name.type16 with
    | some t, _ => (if result = [] then result else result ++ [':']) ++ t
    | none, some w => (if result = [] then result else result ++ [':']) ++ Utf16ToUtf8 w
    | none, none => result
  let result :=
    match resource_name.entry, resource_name.entry16 with
    | some t, _ => (if result = [] then result else result ++ ['/']) ++ t
    | none, some w => (if result = [] then result else result ++ ['/']) ++ Utf16ToUtf8 w
    | none, none => result
  result

/-- Spec-side helper: the package segment the formatter is specified to emit
(the package text when present, nothing otherwise). -/
def packageSegment (resource_name : ResourceName) : List Char :=
  match resource_name.package with
  | some p => p
  | none => []

/-- Spec-side helper: the text a narrow/wide field pair denotes — the narrow
representation when present, the decoded wide representation otherwise,
nothing when neither is present. -/
def segPair (narrow wide : Option (List Char)) : List Char :=
  match narrow, wide with
  | some t, _ => t
  | none, some w => Utf16ToUtf8 w
  | none, none => []

/-- Spec-side helper: the type segment the formatter is specified to emit. -/
def typeSegment (resource_name : ResourceName) : List Char :=
  segPair resource_name.type resource_name.type16

/-- Spec-side helper: the entry segment the formatter is specified to emit. -/
def entrySegment (resource_name : ResourceName) : List Char :=
  segPair resource_name.entry resource_name.entry16

/-- Spec-side helper: the separator the formatter writes between the package
and type segments — a ':' exactly when a type segment exists and the result
written so far (the package segment) is nonempty. -/
def formatSep1 (resource_name : ResourceName) : List Char :=
  if (resource_name.type ≠ none ∨ resource_name.type16 ≠ none) ∧
      packageSegment resource_name ≠ [] then [':'] else []

/-- Spec-side helper: the separator the formatter writes before the entry
segment — a '/' exactly when an entry segment exists and the result written
so far (package, first separator and type segments) is nonempty. -/
def formatSep2 (resource_name : ResourceName) : List Char :=
  if (resource_name.entry ≠ none ∨ resource_name.entry16 ≠ none) ∧
      packageSegment resource_name ++ formatSep1 resource_name ++
        typeSegment resource_name ≠ [] then ['/'] else []

/-- One field block of the formatter, abstracted over the separator and the
field pair: used only to factor the proof that the formatter decomposes into
segments; the formatter itself is transcribed directly. -/
def fieldAppend (sep : Char) (result : List Char)
    (narrow wide : Option (List Char)) : List Char :=
  match narrow, wide with
  | some t, _ => (if result = [] then result else result ++ [sep]) ++ t
  | none, some w => (if result = [] then result else result ++ [sep]) ++ Utf16ToUtf8 w
  | none, none => result

/-- A pool reference whose narrow lookup resolves to the given text and whose
wide lookup reports absence; used to feed tokenizer output to ToResourceName
for the round-trip pipeline. -/
def refOfToken (t : List Char) : StringPoolRef :=
  { string8 := .ok t, string16 := .unexpected NullOrIOError.null }

/-- The round-trip pipeline step: materialize the tokenizer's output, each
tokenized part resolving successfully through its pool reference. -/
def materializeTokens (r : TokenizedName) : Expected ResourceName :=
  ToResourceName (refOfToken r.type) (refOfToken r.entry) r.package

/-- The ResourceName the round-trip pipeline produces: every field set from
its token through the narrow pool string. -/
def resourceNameOfTokens (r : TokenizedName) : ResourceName :=
  { package := some r.package, type := some r.type, type16 := none,
    entry := some r.entry, entry16 := none }

/-- Spec-side helper: re-joining the three tokenized parts with the implied
separators of the grammar, a ':' after a present (nonempty) package and a '/'
after a present (nonempty) type. -/
def rejoinTokens (r : TokenizedName) : List Char :=
  (if r.package = [] then [] else r.package ++ [':']) ++
    (if r.type = [] then [] else r.type ++ ['/']) ++ r.entry

/-- The type-field phase of ToResourceName runs to completion without an early
return: either the narrow lookup succeeds, or it reports absence and the wide
lookup succeeds. -/
def TypeResolves (type_string_ref : StringPoolRef) : Prop :=
  (∃ s, type_string_ref.string8 = Expected.ok s) ∨
    (type_string_ref.string8 = Expected.unexpected NullOrIOError.null ∧
      ∃ w, type_string_ref.string16 = Expected.ok w)

/-- A field's two representations are in exactly one of the three states
unset, narrow-set, wide-set. -/
def ThreeState (narrow wide : Option (List Char)) : Prop :=
  (narrow = none ∧ wide = none) ∨ (narrow ≠ none ∧ wide = none) ∨
    (narrow = none ∧ wide ≠ none)

/-- Sample pool reference whose narrow lookup succeeds. -/
def sampleTypeRef : StringPoolRef :=
  { string8 := .ok ['t'], string16 := .unexpected NullOrIOError.null }

/-- Sample pool reference whose narrow lookup reports absence and whose wide
lookup succeeds. -/
def sampleEntryRef : StringPoolRef :=
  { string8 := .unexpected NullOrIOError.null, string16 := .ok ['e'] }

/-- The ResourceName that ToResourceName produces from the two sample
references and the package name "p". -/
def sampleName : ResourceName :=
  { package := some ['p'], type := some ['t'], type16 := none,
    entry := none, entry16 := some ['e'] }

/-- A ResourceName whose type and entry fields are fully unset. -/
def sampleUnsetName : ResourceName :=
  { package := some ['p'], type := none, type16 := none,
    entry := none, entry16 := none }

/-! Helper lemmas about the scan loop. -/

theorem extractLoop_ok_iff (rest : List Char) :
    ∀ (acc pkg typ : List Char) (hp ht : Bool),
      ((extractLoop rest acc pkg typ hp ht).ok = false ↔
        ((extractLoop rest acc pkg typ hp ht).hasPackageSeparator = true ∧
          (extractLoop rest acc pkg typ hp ht).package = []) ∨
        ((extractLoop rest acc pkg typ hp ht).hasTypeSeparator = true ∧
          (extractLoop rest acc pkg typ hp ht).type = [])) := by
  induction rest with
  | nil =>
      intro acc pkg typ hp ht
      cases hp <;> cases ht <;> cases pkg <;> cases typ <;> simp [extractLoop]
  | cons c rest ih =>
      intro acc pkg typ hp ht
      by_cases h1 : typ = [] ∧ c = '/'
      · simp only [extractLoop, if_pos h1]
        exact ih [] pkg acc hp true
      · by_cases h2 : pkg = [] ∧ c = ':'
        · simp only [extractLoop, if_neg h1, if_pos h2]
          exact ih [] acc typ true ht
        · simp only [extractLoop, if_neg h1, if_neg h2]
          exact ih (acc ++ [c]) pkg typ hp ht

theorem extractLoop_absorb (rest : List Char) :
    ∀ (acc pkg typ : List Char) (hp ht : Bool), pkg ≠ [] → typ ≠ [] →
      extractLoop rest acc pkg typ hp ht =
        { package := pkg, type := typ, entry := acc ++ rest,
          hasPackageSeparator := hp, hasTypeSeparator := ht, ok := true } := by
  induction rest with
  | nil =>
      intro acc pkg typ hp ht hpkg htyp
      rcases pkg with _ | ⟨a, pkg⟩
      · exact absurd rfl hpkg
      · rcases typ with _ | ⟨b, typ⟩
        · exact absurd rfl htyp
        · simp [extractLoop]
  | cons c rest ih =>
      intro acc pkg typ hp ht hpkg htyp
      have h1 : ¬(typ = [] ∧ c = '/') := fun h => htyp h.1
      have h2 : ¬(pkg = [] ∧ c = ':') := fun h => hpkg h.1
      simp only [extractLoop, if_neg h1, if_neg h2]
      rw [ih (acc ++ [c]) pkg typ hp ht hpkg htyp]
      simp

theorem extractLoop_colon_package (rest : List Char) :
    ∀ (acc pkg typ : List Char) (hp ht : Bool),
      ':' ∉ pkg → (pkg = [] → ':' ∉ acc) →
      ':' ∉ (extractLoop rest acc pkg typ hp ht).package := by
  induction rest with
  | nil =>
      intro acc pkg typ hp ht hpkg _
      simpa [extractLoop] using hpkg
  | cons c rest ih =>
      intro acc pkg typ hp ht hpkg hacc
      by_cases h1 : typ = [] ∧ c = '/'
      · simp only [extractLoop, if_pos h1]
        exact ih [] pkg acc hp true hpkg (fun h => by simp)
      · by_cases h2 : pkg = [] ∧ c = ':'
        · simp only [extractLoop, if_neg h1, if_pos h2]
          exact ih [] acc typ true ht (hacc h2.1) (fun h => by simp)
        · simp only [extractLoop, if_neg h1, if_neg h2]
          refine ih (acc ++ [c]) pkg typ hp ht hpkg ?_
          intro hp0
          have hc : c ≠ ':' := fun hceq => h2 ⟨hp0, hceq⟩
          simp [List.mem_append, hacc hp0, Ne.symm hc]

theorem extractLoop_slash_type (rest : List Char) :
    ∀ (acc pkg typ : List Char) (hp ht : Bool),
      '/' ∉ typ → (typ = [] → '/' ∉ acc) →
      '/' ∉ (extractLoop rest acc pkg typ hp ht).type := by
  induction rest with
  | nil =>
      intro acc pkg typ hp ht htyp _
      simpa [extractLoop] using htyp
  | cons c rest ih =>
      intro acc pkg typ hp ht htyp hacc
      by_cases h1 : typ = [] ∧ c = '/'
      · simp only [extractLoop, if_pos h1]
        exact ih [] pkg acc hp true (hacc h1.1) (fun h => by simp)
      · by_cases h2 : pkg = [] ∧ c = ':'
        · simp only [extractLoop, if_neg h1, if_pos h2]
          exact ih [] acc typ true ht htyp (fun h => by simp)
        · simp only [extractLoop, if_neg h1, if_neg h2]
          refine ih (acc ++ [c]) pkg typ hp ht htyp ?_
          intro ht0
          have hc : c ≠ '/' := fun hceq => h1 ⟨ht0, hceq⟩
          simp [List.mem_append, hacc ht0, Ne.symm hc]

theorem extractLoop_ok_package_nil (rest : List Char) :
    ∀ (acc pkg typ : List Char) (hp ht : Bool),
      (extractLoop rest acc pkg typ hp ht).ok = true →
      (extractLoop rest acc pkg typ hp ht).package = [] →
      hp = false ∧ pkg = [] ∧ ':' ∉ rest := by
  induction rest with
  | nil =>
      intro acc pkg typ hp ht hok hpkg
      simp only [extractLoop] at hok hpkg
      subst hpkg
      cases hp
      · simp
      · simp at hok
  | cons c rest ih =>
      intro acc pkg typ hp ht hok hpkg
      by_cases h1 : typ = [] ∧ c = '/'
      · simp only [extractLoop, if_pos h1] at hok hpkg
        obtain ⟨hhp, hpk, hmem⟩ := ih [] pkg acc hp true hok hpkg
        refine ⟨hhp, hpk, ?_⟩
        simp [h1.2, hmem]
      · by_cases h2 : pkg = [] ∧ c = ':'
        · simp only [extractLoop, if_neg h1, if_pos h2] at hok hpkg
          obtain ⟨hhp, _, _⟩ := ih [] acc typ true ht hok hpkg
          exact absurd hhp (by simp)
        · simp only [extractLoop, if_neg h1, if_neg h2] at hok hpkg
          obtain ⟨hhp, hpk, hmem⟩ := ih (acc ++ [c]) pkg typ hp ht hok hpkg
          have hc : c ≠ ':' := fun hceq => h2 ⟨hpk, hceq⟩
          refine ⟨hhp, hpk, ?_⟩
          simp [hmem, Ne.symm hc]

theorem extractLoop_ok_type_nil (rest : List Char) :
    ∀ (acc pkg typ : List Char) (hp ht : Bool),
      (extractLoop rest acc pkg typ hp ht).ok = true →
      (extractLoop rest acc pkg typ hp ht).type = [] →
      ht = false ∧ typ = [] ∧ '/' ∉ rest := by
  induction rest with
  | nil =>
      intro acc pkg typ hp ht hok htyp
      simp only [extractLoop] at hok htyp
      subst htyp
      cases ht
      · simp
      · simp at hok
  | cons c rest ih =>
      intro acc pkg typ hp ht hok htyp
      by_cases h1 : typ = [] ∧ c = '/'
      · simp only [extractLoop, if_pos h1] at hok htyp
        obtain ⟨hht, _, _⟩ := ih [] pkg acc hp true hok htyp
        exact absurd hht (by simp)
      · by_cases h2 : pkg = [] ∧ c = ':'
        · simp only [extractLoop, if_neg h1, if_pos h2] at hok htyp
          obtain ⟨hht, hty, hmem⟩ := ih [] acc typ true ht hok htyp
          refine ⟨hht, hty, ?_⟩
          simp [h2.2, hmem]
        · simp only [extractLoop, if_neg h1, if_neg h2] at hok htyp
          obtain ⟨hht, hty, hmem⟩ := ih (acc ++ [c]) pkg typ hp ht hok htyp
          have hc : c ≠ '/' := fun hceq => h1 ⟨hty, hceq⟩
          refine ⟨hht, hty, ?_⟩
          simp [hmem, Ne.symm hc]

/-! Helper lemmas about the materializer and the formatter. -/

theorem typeNarrowStep_of_ok (tref : StringPoolRef) (name : ResourceName)
    (s : List Char) (h : tref.string8 = Expected.ok s) :
    typeNarrowStep tref name = Expected.ok { name with type := some s } := by
  unfold typeNarrowStep
  rw [h]

theorem typeNarrowStep_of_null (tref : StringPoolRef) (name : ResourceName)
    (h : tref.string8 = Expected.unexpected NullOrIOError.null) :
    typeNarrowStep tref name = Expected.ok name := by
  unfold typeNarrowStep
  rw [h]

theorem typeNarrowStep_of_io (tref : StringPoolRef) (name : ResourceName)
    (c : Int) (h : tref.string8 = Expected.unexpected (NullOrIOError.ioError c)) :
    typeNarrowStep tref name = Expected.unexpected (NullOrIOError.ioError c) := by
  unfold typeNarrowStep
  rw [h]

theorem entryNarrowStep_of_ok (eref : StringPoolRef) (name : ResourceName)
    (s : List Char) (h : eref.string8 = Expected.ok s) :
    entryNarrowStep eref name = Expected.ok { name with entry := some s } := by
  unfold entryNarrowStep
  rw [h]

theorem entryNarrowStep_of_null (eref : StringPoolRef) (name : ResourceName)
    (h : eref.string8 = Expected.unexpected NullOrIOError.null) :
    entryNarrowStep eref name = Expected.ok name := by
  unfold entryNarrowStep
  rw [h]

theorem entryNarrowStep_of_io (eref : StringPoolRef) (name : ResourceName)
    (c : Int) (h : eref.string8 = Expected.unexpected (NullOrIOError.ioError c)) :
    entryNarrowStep eref name = Expected.unexpected (NullOrIOError.ioError c) := by
  unfold entryNarrowStep
  rw [h]

theorem typeWideStep_of_set (tref : StringPoolRef) (name : ResourceName)
    (h : name.type ≠ none) : typeWideStep tref name = Expected.ok name := by
  unfold typeWideStep
  rw [if_neg h]

theorem typeWideStep_of_none_ok (tref : StringPoolRef) (name : ResourceName)
    (w : List Char) (h : name.type = none) (hw : tref.string16 = Expected.ok w) :
    typeWideStep tref name = Expected.ok { name with type16 := some w } := by
  unfold typeWideStep
  rw [if_pos h, hw]

theorem typeWideStep_of_none_err (tref : StringPoolRef) (name : ResourceName)
    (e : NullOrIOError) (h : name.type = none)
    (hw : tref.string16 = Expected.unexpected e) :
    typeWideStep tref name = Expected.unexpected e := by
  unfold typeWideStep
  rw [if_pos h, hw]

theorem entryWideStep_of_set (eref : StringPoolRef) (name : ResourceName)
    (h : name.entry ≠ none) : entryWideStep eref name = Expected.ok name := by
  unfold entryWideStep
  rw [if_neg h]

theorem entryWideStep_of_none_ok (eref : StringPoolRef) (name : ResourceName)
    (w : List Char) (h : name.entry = none) (hw : eref.string16 = Expected.ok w) :
    entryWideStep eref name = Expected.ok { name with entry16 := some w } := by
  unfold entryWideStep
  rw [if_pos h, hw]

theorem entryWideStep_of_none_err (eref : StringPoolRef) (name : ResourceName)
    (e : NullOrIOError) (h : name.entry = none)
    (hw : eref.string16 = Expected.unexpected e) :
    entryWideStep eref name = Expected.unexpected e := by
  unfold entryWideStep
  rw [if_pos h, hw]

theorem toResourceNameTraced_fst (tref eref : StringPoolRef) (pkg : List Char) :
    (ToResourceNameTraced tref eref pkg).1 = ToResourceName tref eref pkg := by
  rcases h1 : typeNarrowStep tref { package := some pkg } with n1 | e
  · rcases h2 : typeWideStep tref n1 with n2 | e
    · rcases h3 : entryNarrowStep eref n2 with n3 | e
      · simp [ToResourceNameTraced, ToResourceName, h1, h2, h3]
      · simp [ToResourceNameTraced, ToResourceName, h1, h2, h3]
    · simp [ToResourceNameTraced, ToResourceName, h1, h2]
  · simp [ToResourceNameTraced, ToResourceName, h1]

theorem materializeTokens_eq (r : TokenizedName) :
    materializeTokens r = Expected.ok (resourceNameOfTokens r) := rfl

theorem format_tokens (r : TokenizedName) (h : r.package ≠ [] → r.type ≠ []) :
    ToFormattedResourceString (resourceNameOfTokens r) = rejoinTokens r := by
  obtain ⟨pkg, typ, ent, hp, ht, ok⟩ := r
  by_cases hpkg : pkg = []
  · by_cases htyp : typ = [] <;>
      simp [ToFormattedResourceString, resourceNameOfTokens, rejoinTokens,
        Utf16ToUtf8, hpkg, htyp]
  · have htyp : typ ≠ [] := h hpkg
    simp [ToFormattedResourceString, resourceNameOfTokens, rejoinTokens,
      Utf16ToUtf8, hpkg, htyp]

theorem format_eq_fieldAppend (rn : ResourceName) :
    ToFormattedResourceString rn =
      fieldAppend '/' (fieldAppend ':' (packageSegment rn) rn.type rn.type16)
        rn.entry rn.entry16 := by
  obtain ⟨p, t, t16, e, e16⟩ := rn
  rcases p with _ | p <;> rcases t with _ | t <;> rcases t16 with _ | t16 <;>
    rcases e with _ | e <;> rcases e16 with _ | e16 <;> rfl

theorem fieldAppend_eq (sep : Char) (result : List Char)
    (narrow wide : Option (List Char)) :
    fieldAppend sep result narrow wide =
      result ++ (if (narrow ≠ none ∨ wide ≠ none) ∧ result ≠ [] then [sep] else []) ++
        segPair narrow wide := by
  rcases narrow with _ | t
  · rcases wide with _ | w
    · simp [fieldAppend, segPair]
    · by_cases h : result = [] <;> simp [fieldAppend, segPair, h]
  · by_cases h : result = [] <;> simp [fieldAppend, segPair, h]

/-! Claim theorems. -/

/-- Claim C1: the claim states that when narrow and wide lookups both report
plain absence the materializer succeeds with the field fully unset.  The code
does the opposite: with the type reference doubly absent (and the entry
reference resolving fine), ToResourceName returns the null failure, because
the wide-lookup early-return guard fires on any failure, absence included. -/
theorem toResourceName_double_absence_is_error :
    ToResourceName
        { string8 := Expected.unexpected NullOrIOError.null,
          string16 := Expected.unexpected NullOrIOError.null }
        { string8 := Expected.ok ['e'],
          string16 := Expected.unexpected NullOrIOError.null } ['p'] =
      Expected.unexpected NullOrIOError.null := rfl

/-- Claim C2, counterexample: the claim says the package field is assigned
from at most the first ':' of the string and every later ':' stays inside the
entry slice.  On ":a:b" the first ':' captures an empty package, which leaves
the field eligible for re-assignment: the second ':' assigns package "a", the
call succeeds, and no ':' remains in the entry slice. -/
theorem tokenizer_reassigns_after_empty_capture :
    (ExtractResourceName (":a:b").toList).package = ['a'] ∧
    (ExtractResourceName (":a:b").toList).ok = true ∧
    ':' ∉ (ExtractResourceName (":a:b").toList).entry ∧
    (ExtractResourceName ("/x/y").toList).type = ['x'] ∧
    '/' ∉ (ExtractResourceName ("/x/y").toList).entry := by decide

/-- Claim C2, amended: the tokenizer assigns each field from the first
separator that occurs while that field is still empty (so a separator that
captured an empty slice leaves the field open to re-assignment); hence the
package never contains a ':' and the type never contains a '/', and once both
fields hold nonempty slices the entire remainder of the input, any further
':' or '/' included, is absorbed into the entry slice unchanged. -/
theorem tokenizer_first_eligible_separator :
    (∀ s : List Char,
      ':' ∉ (ExtractResourceName s).package ∧ '/' ∉ (ExtractResourceName s).type) ∧
    (∀ (rest acc pkg typ : List Char) (hp ht : Bool), pkg ≠ [] → typ ≠ [] →
      extractLoop rest acc pkg typ hp ht =
        { package := pkg, type := typ, entry := acc ++ rest,
          hasPackageSeparator := hp, hasTypeSeparator := ht, ok := true }) := by
  constructor
  · intro s
    exact ⟨extractLoop_colon_package _ _ _ _ _ _ (by simp) (fun _ => by simp),
      extractLoop_slash_type _ _ _ _ _ _ (by simp) (fun _ => by simp)⟩
  · intro rest acc pkg typ hp ht h1 h2
    exact extractLoop_absorb rest acc pkg typ hp ht h1 h2

/-- Witness for the amended claim C2 at a concrete loop state. -/
theorem tokenizer_first_eligible_separator_witness :
    extractLoop ['/', ':'] ['x'] ['p'] ['t'] true true =
      { package := ['p'], type := ['t'], entry := ['x', '/', ':'],
        hasPackageSeparator := true, hasTypeSeparator := true, ok := true } :=
  tokenizer_first_eligible_separator.2 ['/', ':'] ['x'] ['p'] ['t'] true true
    (by decide) (by decide)

/-- Claim C3, counterexample: "@a:b" is accepted by the tokenizer and every
tokenized part resolves successfully through materialization, yet the
formatted result is "a:/b" — the '@' marker is lost and a stray '/' appears —
so the round trip reproduces neither the input nor its separators. -/
theorem roundTrip_marker_lost :
    (ExtractResourceName ("@a:b").toList).ok = true ∧
    materializeTokens (ExtractResourceName ("@a:b").toList) =
      Expected.ok { package := some ['a'], type := some [], type16 := none,
                    entry := some ['b'], entry16 := none } ∧
    ToFormattedResourceString
        { package := some ['a'], type := some [], type16 := none,
          entry := some ['b'], entry16 := none } = ['a', ':', '/', 'b'] ∧
    ['a', ':', '/', 'b'] ≠ ("@a:b").toList ∧
    ['a', ':', '/', 'b'] ≠ ['a', ':', 'b'] := by decide

/-- Claim C3, amended: for every accepted input that is canonical — after
stripping an optional leading '@' it equals the re-join of its own tokens
with the implied separators — and whose package part, when present, is
accompanied by a type part, materializing the tokens succeeds and formatting
the result reproduces the input with the leading '@' removed; moreover no ':'
appears in the output when the package part is absent and no '/' appears when
the package and type parts are both absent. -/
theorem roundTrip_canonical (s : List Char)
    (hok : (ExtractResourceName s).ok = true)
    (hpt : (ExtractResourceName s).package ≠ [] → (ExtractResourceName s).type ≠ [])
    (hcanon : stripRefMarker s = rejoinTokens (ExtractResourceName s)) :
    materializeTokens (ExtractResourceName s) =
      Expected.ok (resourceNameOfTokens (ExtractResourceName s)) ∧
    ToFormattedResourceString (resourceNameOfTokens (ExtractResourceName s)) =
      stripRefMarker s ∧
    ((ExtractResourceName s).package = [] →
      ':' ∉ ToFormattedResourceString (resourceNameOfTokens (ExtractResourceName s))) ∧
    ((ExtractResourceName s).package = [] → (ExtractResourceName s).type = [] →
      '/' ∉ ToFormattedResourceString (resourceNameOfTokens (ExtractResourceName s))) := by
  have hfmt : ToFormattedResourceString (resourceNameOfTokens (ExtractResourceName s)) =
      stripRefMarker s := by
    rw [format_tokens _ hpt]
    exact hcanon.symm
  refine ⟨materializeTokens_eq _, hfmt, ?_, ?_⟩
  · intro hp
    rw [hfmt]
    exact (extractLoop_ok_package_nil (stripRefMarker s) [] [] [] false false hok hp).2.2
  · intro _ htp
    rw [hfmt]
    exact (extractLoop_ok_type_nil (stripRefMarker s) [] [] [] false false hok htp).2.2

/-- Witness for the amended claim C3 at the canonical input "a:b/c". -/
theorem roundTrip_canonical_witness :
    ToFormattedResourceString
        (resourceNameOfTokens (ExtractResourceName ("a:b/c").toList)) =
      stripRefMarker ("a:b/c").toList :=
  (roundTrip_canonical ("a:b/c").toList (by decide) (by decide) (by decide)).2.1

/-- Claim C4: the tokenizer returns ok = false exactly when a ':' separator
was consumed but the package slice ended empty, or a '/' separator was
consumed but the type slice ended empty; ":hello" and "/hello" are rejected
while "package:type/entry", "type/entry" and "hello" are accepted. -/
theorem tokenizer_validity_rule :
    (∀ s : List Char,
      ((ExtractResourceName s).ok = false ↔
        ((ExtractResourceName s).hasPackageSeparator = true ∧
          (ExtractResourceName s).package = []) ∨
        ((ExtractResourceName s).hasTypeSeparator = true ∧
          (ExtractResourceName s).type = []))) ∧
    (ExtractResourceName (":hello").toList).ok = false ∧
    (ExtractResourceName ("/hello").toList).ok = false ∧
    (ExtractResourceName ("package:type/entry").toList).ok = true ∧
    (ExtractResourceName ("type/entry").toList).ok = true ∧
    (ExtractResourceName ("hello").toList).ok = true := by
  refine ⟨fun s => extractLoop_ok_iff (stripRefMarker s) [] [] [] false false,
    ?_, ?_, ?_, ?_, ?_⟩ <;> decide

/-- Witness for claim C4: the validity rule applied at ":hello". -/
theorem tokenizer_validity_rule_witness :
    (ExtractResourceName (":hello").toList).ok = false :=
  (tokenizer_validity_rule.1 (":hello").toList).mpr (by decide)

/-- Claim C5: when a narrow lookup returns an I/O failure, the materializer
returns exactly that failure immediately.  If the type's narrow lookup fails
with an I/O error, the only lookup performed is that one — neither the wide
type lookup nor any entry lookup runs.  If the type phase resolves and the
entry's narrow lookup fails with an I/O error, that failure is returned and
the wide entry lookup is never performed. -/
theorem toResourceName_io_short_circuit :
    (∀ (tref eref : StringPoolRef) (pkg : List Char) (c : Int),
      tref.string8 = Expected.unexpected (NullOrIOError.ioError c) →
      ToResourceNameTraced tref eref pkg =
        (Expected.unexpected (NullOrIOError.ioError c), [PoolOp.narrowType])) ∧
    (∀ (tref eref : StringPoolRef) (pkg : List Char) (c : Int),
      TypeResolves tref →
      eref.string8 = Expected.unexpected (NullOrIOError.ioError c) →
      (ToResourceNameTraced tref eref pkg).1 =
          Expected.unexpected (NullOrIOError.ioError c) ∧
        PoolOp.wideEntry ∉ (ToResourceNameTraced tref eref pkg).2) := by
  constructor
  · rintro ⟨t8, t16⟩ eref pkg c h
    have h2 : t8 = Expected.unexpected (NullOrIOError.ioError c) := h
    subst h2
    rfl
  · rintro ⟨t8, t16⟩ ⟨e8, e16⟩ pkg c hres h8
    have h9 : e8 = Expected.unexpected (NullOrIOError.ioError c) := h8
    subst h9
    rcases hres with ⟨s, hs⟩ | ⟨hn, w, hw⟩
    · have hs2 : t8 = Expected.ok s := hs
      subst hs2
      refine ⟨rfl, ?_⟩
      show PoolOp.wideEntry ∉ [PoolOp.narrowType, PoolOp.narrowEntry]
      decide
    · have hn2 : t8 = Expected.unexpected NullOrIOError.null := hn
      subst hn2
      have hw2 : t16 = Expected.ok w := hw
      subst hw2
      refine ⟨rfl, ?_⟩
      show PoolOp.wideEntry ∉ [PoolOp.narrowType, PoolOp.wideType, PoolOp.narrowEntry]
      decide

/-- Witness for claim C5: a type reference with I/O-failing narrow lookup. -/
theorem toResourceName_io_short_circuit_witness :
    ToResourceNameTraced
        { string8 := Expected.unexpected (NullOrIOError.ioError 7),
          string16 := Expected.ok [] }
        { string8 := Expected.ok [], string16 := Expected.ok [] } [] =
      (Expected.unexpected (NullOrIOError.ioError 7), [PoolOp.narrowType]) :=
  toResourceName_io_short_circuit.1 _ _ [] 7 rfl

/-- Claim C6: any ResourceName the materializer returns successfully has each
of its type and entry fields in exactly one of the three states unset,
narrow-set or wide-set — never both representations at once — and the wide
representation is populated only when the narrow lookup reported absence. -/
theorem toResourceName_field_states :
    ∀ (tref eref : StringPoolRef) (pkg : List Char) (name : ResourceName),
      ToResourceName tref eref pkg = Expected.ok name →
      ThreeState name.type name.type16 ∧ ThreeState name.entry name.entry16 ∧
      (name.type16 ≠ none →
        tref.string8 = Expected.unexpected NullOrIOError.null ∧ name.type = none) ∧
      (name.entry16 ≠ none →
        eref.string8 = Expected.unexpected NullOrIOError.null ∧ name.entry = none) := by
  rintro ⟨t8, t16⟩ ⟨e8, e16⟩ pkg name h
  rcases t8 with ts | (_ | tc) <;>
    rcases e8 with es | (_ | ec) <;>
      rcases t16 with tw | (_ | twc) <;>
        rcases e16 with ew | (_ | ewc) <;>
          simp [ToResourceName, typeNarrowStep, typeWideStep, entryNarrowStep,
            entryWideStep] at h <;>
            (try subst h) <;> simp [ThreeState]

/-- Witness for claim C6: concrete pool responses producing a narrow-set type
and a wide-set entry. -/
theorem toResourceName_field_states_witness :
    ThreeState sampleName.type sampleName.type16 ∧
      (sampleEntryRef.string8 = Expected.unexpected NullOrIOError.null ∧
        sampleName.entry = none) :=
  ⟨(toResourceName_field_states sampleTypeRef sampleEntryRef ['p'] sampleName
      (by decide)).1,
   (toResourceName_field_states sampleTypeRef sampleEntryRef ['p'] sampleName
      (by decide)).2.2.2 (by decide)⟩

/-- Claim C7: the formatter emits the package, type and entry segments in
that fixed order; a ':' is written before the type segment only if a package
segment was written, a '/' is written before the entry segment only if some
preceding segment was written, each segment uses the narrow representation
when present and otherwise decodes the wide one, and a field with neither
representation contributes nothing and triggers no separator. -/
theorem formatter_segment_structure :
    ∀ rn : ResourceName,
      ToFormattedResourceString rn =
        packageSegment rn ++ formatSep1 rn ++ typeSegment rn ++ formatSep2 rn ++
          entrySegment rn ∧
      (formatSep1 rn = [] ∨ formatSep1 rn = [':']) ∧
      (formatSep2 rn = [] ∨ formatSep2 rn = ['/']) ∧
      (formatSep1 rn ≠ [] → rn.package ≠ none) ∧
      (formatSep2 rn ≠ [] → rn.package ≠ none ∨ rn.type ≠ none ∨ rn.type16 ≠ none) ∧
      (rn.type = none ∧ rn.type16 = none → typeSegment rn = [] ∧ formatSep1 rn = []) ∧
      (rn.entry = none ∧ rn.entry16 = none → entrySegment rn = [] ∧ formatSep2 rn = []) := by
  intro rn
  refine ⟨?_, ?_, ?_, ?_, ?_, ?_, ?_⟩
  · rw [format_eq_fieldAppend]
    simp only [fieldAppend_eq]
    simp only [formatSep1, formatSep2, typeSegment, entrySegment]
  · unfold formatSep1
    split_ifs <;> simp
  · unfold formatSep2
    split_ifs <;> simp
  · intro h
    unfold formatSep1 at h
    split_ifs at h with hc
    · rcases hpk : rn.package with _ | p
      · exact absurd (by simp [packageSegment, hpk]) hc.2
      · simp [hpk]
    · exact absurd rfl h
  · intro h
    unfold formatSep2 at h
    split_ifs at h with hc
    · by_cases ht : rn.type = none
      · by_cases ht16 : rn.type16 = none
        · have hT : typeSegment rn = [] := by simp [typeSegment, segPair, ht, ht16]
          have hS1 : formatSep1 rn = [] := by simp [formatSep1, ht, ht16]
          have hP : packageSegment rn ≠ [] := by
            intro hP0
            exact hc.2 (by simp [hP0, hS1, hT])
          rcases hpk : rn.package with _ | p
          · exact absurd (by simp [packageSegment, hpk]) hP
          · exact Or.inl (by simp [hpk])
        · exact Or.inr (Or.inr ht16)
      · exact Or.inr (Or.inl ht)
    · exact absurd rfl h
  · rintro ⟨h1, h2⟩
    exact ⟨by simp [typeSegment, segPair, h1, h2], by simp [formatSep1, h1, h2]⟩
  · rintro ⟨h1, h2⟩
    exact ⟨by simp [entrySegment, segPair, h1, h2], by simp [formatSep2, h1, h2]⟩

/-- Witness for claim C7: a name with the type field fully unset contributes
no type segment and no first separator. -/
theorem formatter_segment_structure_witness :
    typeSegment sampleUnsetName = [] ∧ formatSep1 sampleUnsetName = [] :=
  (formatter_segment_structure sampleUnsetName).2.2.2.2.2.1 ⟨rfl, rfl⟩

/-- Claim C8: the tokenizer maps the empty string to three empty slices with
ok = true, and a lone "@" behaves identically to the empty input once the
marker is stripped. -/
theorem tokenizer_empty_and_lone_marker :
    ExtractResourceName [] =
      { package := [], type := [], entry := [], hasPackageSeparator := false,
        hasTypeSeparator := false, ok := true } ∧
    ExtractResourceName ['@'] = ExtractResourceName [] :=
  ⟨rfl, rfl⟩

/-- Claim C9: the C++ reads the first input character before any length
check; in the embedding where that read returns an Option, the out-of-bounds
branch is taken exactly on the empty input, and on every nonempty input the
checked tokenizer agrees with the total one. -/
theorem tokenizer_first_read_out_of_bounds :
    ∀ s : List Char,
      (ExtractResourceNameChecked s = none ↔ s = []) ∧
      (s ≠ [] → ExtractResourceNameChecked s = some (ExtractResourceName s)) := by
  intro s
  cases s with
  | nil => exact ⟨by simp [ExtractResourceNameChecked], fun h => absurd rfl h⟩
  | cons c t =>
      constructor
      · simp [ExtractResourceNameChecked]
      · intro _
        by_cases hc : c = '@'
        · subst hc
          simp [ExtractResourceNameChecked, ExtractResourceName, stripRefMarker]
        · simp [ExtractResourceNameChecked, ExtractResourceName, stripRefMarker, hc]

/-- Witness for claim C9 at a nonempty input. -/
theorem tokenizer_first_read_out_of_bounds_witness :
    ExtractResourceNameChecked ['x'] = some (ExtractResourceName ['x']) :=
  (tokenizer_first_read_out_of_bounds ['x']).2 (by decide)

/-- Claim C10: the tokenizer does not enforce the package-before-type order
of the grammar: "type/pkg:entry" is accepted with package "pkg", type "type"
and entry "entry", even though the string is not the canonical re-join of
those tokens. -/
theorem tokenizer_accepts_unordered_separators :
    ExtractResourceName ("type/pkg:entry").toList =
      { package := ("pkg").toList, type := ("type").toList,
        entry := ("entry").toList, hasPackageSeparator := true,
        hasTypeSeparator := true, ok := true } ∧
    stripRefMarker ("type/pkg:entry").toList ≠
      rejoinTokens (ExtractResourceName ("type/pkg:entry").toList) := by
  decide

end Android
